import Mathlib

/-!
Shallow embedding of the ToneTranslator pipeline (src/app.py).

Strings are modelled as `List Char`; Python string length is the list
length (Python counts code points, as does `List Char`). Case mapping
(`str.lower`, `str.capitalize`) is modelled on the ASCII fragment via the
core `Char.toLower` / `Char.toUpper`, which perform exactly the A-Z / a-z
shifts Python performs on ASCII text; all literals appearing in the code
are ASCII apart from the emoji suffix, which both sides leave untouched.
-/

set_option autoImplicit false

/-- The apostrophe character (U+0027), written numerically. -/
def apos : Char := Char.ofNat 39

/-- Python `str.lower` on the ASCII fragment: lower-case every character. -/
def pyLower (s : List Char) : List Char := s.map Char.toLower

/-- Python `str.capitalize` on the ASCII fragment: upper-case the first
character and lower-case every later character; empty input stays empty. -/
def pyCapitalize : List Char → List Char
  | [] => []
  | c :: rest => Char.toUpper c :: rest.map Char.toLower

/-- Worker for Python `str.replace`: scans left to right; `skip > 0` means
the scanner is still inside the tail of a match just rewritten (those
characters are consumed without being re-examined, so replacements are
non-overlapping and the replacement text is never rescanned). -/
def pyReplaceAux (pat rep : List Char) : Nat → List Char → List Char
  | _, [] => []
  | Nat.succ k, _ :: rest => pyReplaceAux pat rep k rest
  | 0, c :: rest =>
      if pat ≠ [] ∧ pat.isPrefixOf (c :: rest) then
        rep ++ pyReplaceAux pat rep (pat.length - 1) rest
      else
        c :: pyReplaceAux pat rep 0 rest

/-- Python `str.replace pat rep` for a non-empty pattern: leftmost,
non-overlapping replacement of every occurrence. (The code only ever calls
it with non-empty patterns; for `pat = []` this returns the input.) -/
def pyReplace (pat rep : List Char) (s : List Char) : List Char :=
  pyReplaceAux pat rep 0 s

/-- The fixed substitution table of `_make_professional` / `_make_formal`,
in Python dict insertion order: the contraction of "i am", then of
"do not", then of "can not", then the word "yeah". -/
def replacements : List (List Char × List Char) :=
  [([Char.ofNat 105, apos, Char.ofNat 109], "I am".toList),
   ([Char.ofNat 100, Char.ofNat 111, Char.ofNat 110, apos, Char.ofNat 116], "do not".toList),
   ([Char.ofNat 99, Char.ofNat 97, Char.ofNat 110, apos, Char.ofNat 116], "cannot".toList),
   ("yeah".toList, "yes".toList)]

/-- The `for k, v in replacements.items(): result = result.replace(k, v)`
loop: fold the substitutions over the text in table order. -/
def applyReplacements (s : List Char) : List Char :=
  replacements.foldl (fun acc kv => pyReplace kv.1 kv.2 acc) s

/-- Python `result.endswith(".")` for a one-character suffix. -/
def endsWithDot (s : List Char) : Bool := s.getLast? == some ('.' : Char)

/-- The transformed body shared by `_make_professional` and `_make_formal`:
lower-case, substitute, capitalize, then append a period unless the text
already ends with one. -/
def toneBody (text : List Char) : List Char :=
  let r := pyCapitalize (applyReplacements (pyLower text))
  if endsWithDot r then r else r ++ ['.']

/-- The Professional prefix literal. -/
def proIntro : List Char := "I would like to inform you that ".toList

/-- The Formal prefix literal. -/
def formalIntro : List Char := "It is my understanding that ".toList

/-- `FreeToneConverter._make_professional`. -/
def make_professional (text : List Char) : List Char :=
  if (toneBody text).length > 20 then proIntro ++ toneBody text else toneBody text

/-- `FreeToneConverter._make_formal`. -/
def make_formal (text : List Char) : List Char :=
  if (toneBody text).length > 15 then formalIntro ++ toneBody text else toneBody text

/-- The three greeting starters of `_make_friendly`. -/
def starters : List (List Char) :=
  ["Hey there! ".toList, "Hi! ".toList, "Hello friend! ".toList]

/-- The three closing enders of `_make_friendly`. -/
def enders : List (List Char) :=
  [" 😊".toList, " Hope that helps!".toList, " Have a great day!".toList]

/-- `FreeToneConverter._make_friendly`: the two independent `choice` draws
are made explicit as indices into the starter and ender lists. -/
def make_friendly (i j : Fin 3) (text : List Char) : List Char :=
  starters.get i ++ text ++ enders.get j

/-- The nine possible Friendly outputs: every starter and ender
combination wrapped around the unmodified original text. -/
def friendlyCombos (text : List Char) : List (List Char) :=
  ["Hey there! ".toList ++ text ++ " 😊".toList,
   "Hey there! ".toList ++ text ++ " Hope that helps!".toList,
   "Hey there! ".toList ++ text ++ " Have a great day!".toList,
   "Hi! ".toList ++ text ++ " 😊".toList,
   "Hi! ".toList ++ text ++ " Hope that helps!".toList,
   "Hi! ".toList ++ text ++ " Have a great day!".toList,
   "Hello friend! ".toList ++ text ++ " 😊".toList,
   "Hello friend! ".toList ++ text ++ " Hope that helps!".toList,
   "Hello friend! ".toList ++ text ++ " Have a great day!".toList]

/-- The three-entry mapping returned by
`FreeToneConverter.generate_with_simple_prompts`. -/
structure ToneSet where
  professional : List Char
  formal : List Char
  friendly : List Char
deriving DecidableEq

/-- `FreeToneConverter.generate_with_simple_prompts`: builds the whole
three-entry mapping from one input text. -/
def generate_with_simple_prompts (i j : Fin 3) (text : List Char) : ToneSet :=
  ⟨make_professional text, make_formal text, make_friendly i j text⟩

/-- The end-to-end test input: the phrase "yeah i-am-contraction going". -/
def inputB : List Char := "yeah i".toList ++ [apos] ++ "m going".toList

/-- Outcome of the remote speech-recognition call inside
`SpeechProcessor.transcribe_audio`: success with text, the dedicated
`sr.UnknownValueError` raised when speech cannot be decoded, or any other
raised exception carrying its detail string. -/
inductive RecognitionOutcome where
  | success (text : List Char)
  | unknownValue
  | failure (detail : List Char)
deriving DecidableEq

/-- `SpeechProcessor.transcribe_audio`: the try/except of the source made
explicit over the service outcome. Every branch returns a plain string. -/
def transcribe_audio : RecognitionOutcome → List Char
  | .success t => t
  | .unknownValue => "Could not understand audio".toList
  | .failure e => "Error processing audio: ".toList ++ e

/-- Outcome of the remote translation call inside
`TranslatorHelper.translate_to_english`: success with the translated text,
or any raised exception carrying its detail string. -/
inductive TranslationOutcome where
  | success (text : List Char)
  | failure (detail : List Char)
deriving DecidableEq

/-- `TranslatorHelper.translate_to_english`: the try/except of the source
made explicit over the service outcome. Every branch returns a string. -/
def translate_to_english : TranslationOutcome → List Char
  | .success t => t
  | .failure e => "Translation error: ".toList ++ e

/-- The session-state fields of the pipeline: the capture-in-progress
flag, the recorded audio bytes, the last translated text and the last
generated ToneSet (each `none` until first written). -/
structure SessionState where
  recording : Bool
  audio_data : Option (List Int)
  transcribed_text : Option (List Char)
  generated_responses : Option ToneSet
deriving DecidableEq

/-- One run of the Start-Recording branch of `main`: record, and if audio
was produced, transcribe it, translate the result, store the translation
and store a freshly generated ToneSet; on a failed recording only the
in-progress flag is reset. The two remote services are passed in as
outcome parameters (the translator as a function of the text it is fed),
and the two Friendly draws as indices. -/
def mainRunStep (audio : Option (List Int)) (rec : RecognitionOutcome)
    (translator : List Char → TranslationOutcome) (i j : Fin 3)
    (st : SessionState) : SessionState :=
  match audio with
  | none => ⟨false, st.audio_data, st.transcribed_text, st.generated_responses⟩
  | some a =>
    let raw := transcribe_audio rec
    let translated := translate_to_english (translator raw)
    ⟨false, some a, some translated, some (generate_with_simple_prompts i j translated)⟩

/-- `VoiceRecorder.silence_threshold`. -/
def silence_threshold : Int := 100

/-- Wrap an integer to signed 16-bit, the dtype of the recording array. -/
def toInt16 (n : Int) : Int := (n + 32768) % 65536 - 32768

/-- `np.abs` on one int16 sample: the true absolute value wrapped back
into signed 16-bit width (so 32768 wraps to -32768). -/
def absInt16 (v : Int) : Int := toInt16 |v|

/-- The per-sample predicate of `np.where(audio_array < silence_threshold)`
applied to the absolute-value array: the sample counts as silent. -/
def isSilentSample (v : Int) : Bool := absInt16 v < silence_threshold

/-- The number of silent frames found by the detector. -/
def countSilentFrames (samples : List Int) : Nat :=
  (samples.filter (fun v => isSilentSample v)).length

/-- The silence flag of `VoiceRecorder.record_audio`: more silent frames
than `rate * silence_duration`. -/
def silenceDetected (samples : List Int) : Bool :=
  countSilentFrames samples > 44100 * 2

/-- The initial session state: nothing recorded, nothing generated. -/
def st0 : SessionState := ⟨false, none, none, none⟩

/-- Evaluating `Char.ofNat` below the surrogate range. -/
theorem char_toNat_ofNat {n : Nat} (h : n < 55296) : (Char.ofNat n).toNat = n := by
  unfold Char.ofNat
  rw [dif_pos (Or.inl h)]
  rfl

/-- `Char.isUpper` read through `Char.toNat`. -/
theorem isUpper_iff_toNat (c : Char) :
    c.isUpper = true ↔ 65 ≤ c.toNat ∧ c.toNat ≤ 90 := by
  simp [Char.isUpper, UInt32.le_def, BitVec.le_def, Char.toNat]
  rfl

/-- Lower-casing a character never yields an upper-case character. -/
theorem isUpper_toLower (c : Char) : (Char.toLower c).isUpper = false := by
  have hdef : Char.toLower c =
      if c.toNat >= 65 ∧ c.toNat <= 90 then Char.ofNat (c.toNat + 32) else c := rfl
  rw [hdef]
  split
  · rename_i h
    have hv : (Char.ofNat (c.toNat + 32)).toNat = c.toNat + 32 :=
      char_toNat_ofNat (by omega)
    rw [Bool.eq_false_iff]
    intro hu
    have := (isUpper_iff_toNat _).mp hu
    omega
  · rename_i h
    rw [Bool.eq_false_iff]
    intro hu
    have := (isUpper_iff_toNat _).mp hu
    omega

/-- Characters after the first of a `pyCapitalize` result are lower-cased. -/
theorem isUpper_of_mem_tail_pyCapitalize (s : List Char) :
    ∀ c ∈ (pyCapitalize s).tail, c.isUpper = false := by
  cases s with
  | nil => intro c hc; simp [pyCapitalize] at hc
  | cons a rest =>
    intro c hc
    simp only [pyCapitalize, List.tail_cons, List.mem_map] at hc
    obtain ⟨x, _, rfl⟩ := hc
    exact isUpper_toLower x

/-- Appending the period preserves the no-upper-case-after-first property. -/
theorem tail_append_dot {s : List Char} (hs : ∀ c ∈ s.tail, c.isUpper = false) :
    ∀ c ∈ (s ++ ['.']).tail, c.isUpper = false := by
  cases s with
  | nil => intro c hc; simp at hc
  | cons a t =>
    intro c hc
    rw [List.cons_append, List.tail_cons] at hc
    rcases List.mem_append.mp hc with h | h
    · exact hs c (by simpa using h)
    · rw [List.mem_singleton] at h
      subst h
      decide

/-- No character after the first of the transformed body is upper-case. -/
theorem tail_toneBody_not_upper (text : List Char) :
    ∀ c ∈ (toneBody text).tail, c.isUpper = false := by
  have h := isUpper_of_mem_tail_pyCapitalize (applyReplacements (pyLower text))
  unfold toneBody
  dsimp only
  split
  · exact h
  · exact tail_append_dot h

/-- Professional branch: short bodies are returned as-is. -/
theorem make_professional_of_le {text : List Char}
    (h : (toneBody text).length ≤ 20) : make_professional text = toneBody text := by
  unfold make_professional
  rw [if_neg (by omega)]

/-- Professional branch: long bodies carry the prefix. -/
theorem make_professional_of_gt {text : List Char}
    (h : 20 < (toneBody text).length) :
    make_professional text = proIntro ++ toneBody text := by
  unfold make_professional
  rw [if_pos h]

/-- Formal branch: short bodies are returned as-is. -/
theorem make_formal_of_le {text : List Char}
    (h : (toneBody text).length ≤ 15) : make_formal text = toneBody text := by
  unfold make_formal
  rw [if_neg (by omega)]

/-- Formal branch: long bodies carry the prefix. -/
theorem make_formal_of_gt {text : List Char}
    (h : 15 < (toneBody text).length) :
    make_formal text = formalIntro ++ toneBody text := by
  unfold make_formal
  rw [if_pos h]

/-- The Professional prefix has 32 characters. -/
theorem proIntro_length : proIntro.length = 32 := by decide

/-- The Formal prefix has 28 characters. -/
theorem formalIntro_length : formalIntro.length = 28 := by decide

/-- Claim C1 counterexample: on the scenario-B input "yeah i-m going" the
Formal transform does NOT return the prefixed string the claim asserts
(the body has length 15, which does not exceed the threshold 15). -/
theorem claim_C1_counterexample :
    make_formal inputB ≠ "It is my understanding that Yes i am going.".toList := by
  decide

/-- Claim C1 (amended): on the scenario-B input the Formal transform
produces the intermediate body "Yes i am going." whose length is 15; 15
does not exceed the threshold 15, so the body is returned unprefixed. -/
theorem claim_C1_amended :
    toneBody inputB = "Yes i am going.".toList ∧
    (toneBody inputB).length = 15 ∧
    make_formal inputB = "Yes i am going.".toList := by
  decide

/-- Claim C2 counterexample: on the input "hello dear friend" the
Professional and Formal outputs differ (the transformed body has
length 18, so only the Formal transform prepends its prefix). -/
theorem claim_C2_counterexample :
    make_professional "hello dear friend".toList
      ≠ make_formal "hello dear friend".toList := by
  decide

/-- Claim C2 (amended): the Professional and Formal transforms are total
functions of their input (they are plain Lean functions, so each is
deterministic and never fails), and on a given input their outputs are
identical exactly when the shared transformed body is at most 15
characters long; otherwise the two outputs differ. -/
theorem claim_C2_amended (text : List Char) :
    make_professional text = make_formal text ↔ (toneBody text).length ≤ 15 := by
  constructor
  · intro h
    by_contra hgt
    push_neg at hgt
    by_cases h20 : (toneBody text).length ≤ 20
    · rw [make_professional_of_le h20, make_formal_of_gt hgt] at h
      have hlen := congrArg List.length h
      rw [List.length_append, formalIntro_length] at hlen
      omega
    · push_neg at h20
      rw [make_professional_of_gt h20, make_formal_of_gt hgt] at h
      have hlen := congrArg List.length h
      rw [List.length_append, List.length_append, proIntro_length,
        formalIntro_length] at hlen
      omega
  · intro h
    rw [make_professional_of_le (by omega), make_formal_of_le h]

/-- Claim C3 counterexample: a run whose translation outcome is the empty
string still produces a ToneSet, so a ToneSet is not only produced from a
non-empty TranslatedText. -/
theorem claim_C3_counterexample :
    (mainRunStep (some [0]) (.success "hello".toList)
      (fun _ => .success []) 0 0 st0).transcribed_text = some [] ∧
    (mainRunStep (some [0]) (.success "hello".toList)
      (fun _ => .success []) 0 0 st0).generated_responses ≠ none := by
  decide

/-- Claim C3 (amended): a successful run produces a ToneSet from the run's
TranslatedText whether or not that text is empty (the code has no
non-emptiness guard); once produced the ToneSet is never partially
updated: the run stores the whole freshly generated three-entry mapping,
and the stored mapping does not depend on the prior session state. -/
theorem claim_C3_amended (a : List Int) (ro : RecognitionOutcome)
    (translator : List Char → TranslationOutcome) (i j : Fin 3)
    (st st2 : SessionState) :
    (mainRunStep (some a) ro translator i j st).generated_responses =
      some (generate_with_simple_prompts i j
        (translate_to_english (translator (transcribe_audio ro)))) ∧
    (mainRunStep (some a) ro translator i j st).generated_responses =
      (mainRunStep (some a) ro translator i j st2).generated_responses ∧
    (mainRunStep (some a) ro translator i j st).transcribed_text =
      some (translate_to_english (translator (transcribe_audio ro))) :=
  ⟨rfl, rfl, rfl⟩

/-- Claim C4: scenario A, the Professional transform on "yeah i-m going"
lower-cases (a no-op here), substitutes to "yes I am going", capitalizes
to "Yes i am going", appends the period, and since the body length does
not exceed 20 returns exactly "Yes i am going." with no prefix. -/
theorem claim_C4 :
    pyLower inputB = inputB ∧
    applyReplacements (pyLower inputB) = "yes I am going".toList ∧
    pyCapitalize (applyReplacements (pyLower inputB)) = "Yes i am going".toList ∧
    toneBody inputB = "Yes i am going.".toList ∧
    (toneBody inputB).length ≤ 20 ∧
    make_professional inputB = "Yes i am going.".toList := by
  decide

/-- Claim C5: the Professional output carries its prefix exactly when the
transformed body is longer than 20 characters and equals the bare body
exactly when the length is at most 20; the Formal output carries its
prefix exactly when the body is longer than 15 characters and equals the
bare body exactly when the length is at most 15 (so bodies of lengths 20
and 15 respectively are returned unprefixed). -/
theorem claim_C5 (text : List Char) :
    (proIntro <+: make_professional text ↔ 20 < (toneBody text).length) ∧
    (make_professional text = toneBody text ↔ (toneBody text).length ≤ 20) ∧
    (formalIntro <+: make_formal text ↔ 15 < (toneBody text).length) ∧
    (make_formal text = toneBody text ↔ (toneBody text).length ≤ 15) := by
  refine ⟨⟨?_, ?_⟩, ⟨?_, ?_⟩, ⟨?_, ?_⟩, ⟨?_, ?_⟩⟩
  · intro hp
    by_contra hle
    push_neg at hle
    rw [make_professional_of_le (by omega)] at hp
    have := hp.length_le
    rw [proIntro_length] at this
    omega
  · intro h
    rw [make_professional_of_gt h]
    exact List.prefix_append _ _
  · intro h
    by_contra hgt
    push_neg at hgt
    rw [make_professional_of_gt hgt] at h
    have hlen := congrArg List.length h
    rw [List.length_append, proIntro_length] at hlen
    omega
  · exact fun h => make_professional_of_le h
  · intro hp
    by_contra hle
    push_neg at hle
    rw [make_formal_of_le (by omega)] at hp
    have := hp.length_le
    rw [formalIntro_length] at this
    omega
  · intro h
    rw [make_formal_of_gt h]
    exact List.prefix_append _ _
  · intro h
    by_contra hgt
    push_neg at hgt
    rw [make_formal_of_gt hgt] at h
    have hlen := congrArg List.length h
    rw [List.length_append, formalIntro_length] at hlen
    omega
  · exact fun h => make_formal_of_le h

/-- Claim C6: whatever the two random draws, the Friendly output is one of
the nine combinations of a greeting starter, the unmodified original
text, and a closing ender. -/
theorem claim_C6 (i j : Fin 3) (text : List Char) :
    make_friendly i j text ∈ friendlyCombos text := by
  fin_cases i <;> fin_cases j <;>
    simp [make_friendly, friendlyCombos, starters, enders]

/-- Claim C7: the transcriber and translator embeddings are total over all
service outcomes and return exactly the documented strings: the raw text
on success, the literal sentinel when speech cannot be decoded, and the
prefixed sentinel embedding the error detail on any other failure. -/
theorem claim_C7 :
    (∀ t, transcribe_audio (.success t) = t) ∧
    (transcribe_audio .unknownValue = "Could not understand audio".toList) ∧
    (∀ e, transcribe_audio (.failure e) = "Error processing audio: ".toList ++ e) ∧
    (∀ t, translate_to_english (.success t) = t) ∧
    (∀ e, translate_to_english (.failure e) = "Translation error: ".toList ++ e) :=
  ⟨fun _ => rfl, rfl, fun _ => rfl, fun _ => rfl, fun _ => rfl⟩

/-- Claim C8: on the empty input the Professional and Formal transforms
both return the single period, and the Friendly transform returns one of
the nine combinations wrapping the empty string. -/
theorem claim_C8 :
    make_professional [] = ['.'] ∧ make_formal [] = ['.'] ∧
    ∀ i j : Fin 3, make_friendly i j [] ∈ friendlyCombos [] := by
  decide

/-- Claim C9: every character after the first of the transformed body is
not upper-case (the capitalize step lower-cases everything after the
first character, so the substituted "I am" appears as "i am"), and the
Professional and Formal outputs are exactly that body with an optional
fixed prefix in front. -/
theorem claim_C9 (text : List Char) :
    (∀ c ∈ (toneBody text).tail, c.isUpper = false) ∧
    (make_professional text = toneBody text ∨
      make_professional text = proIntro ++ toneBody text) ∧
    (make_formal text = toneBody text ∨
      make_formal text = formalIntro ++ toneBody text) := by
  refine ⟨tail_toneBody_not_upper text, ?_, ?_⟩
  · by_cases h : (toneBody text).length ≤ 20
    · exact Or.inl (make_professional_of_le h)
    · exact Or.inr (make_professional_of_gt (by omega))
  · by_cases h : (toneBody text).length ≤ 15
    · exact Or.inl (make_formal_of_le h)
    · exact Or.inr (make_formal_of_gt (by omega))

/-- Claim C9 witness: on the concrete input "hi" the letter i is in the
tail of the body "Hi." and is not upper-case. -/
theorem claim_C9_witness :
    Char.ofNat 105 ∈ (toneBody "hi".toList).tail ∧
    (Char.ofNat 105).isUpper = false :=
  ⟨by decide, (claim_C9 "hi".toList).1 (Char.ofNat 105) (by decide)⟩

/-- Claim C10: the sample value -32768 is counted as silent (wrapped
16-bit absolute value stays -32768, below the threshold 100), and every
other representable int16 sample is counted as silent exactly when its
true absolute amplitude is below 100. -/
theorem claim_C10 :
    isSilentSample (-32768) = true ∧
    ∀ v : Int, -32768 < v → v < 32768 → (isSilentSample v = true ↔ |v| < 100) := by
  refine ⟨by decide, ?_⟩
  intro v h1 h2
  unfold isSilentSample absInt16 toInt16 silence_threshold
  simp only [decide_eq_true_eq]
  rcases abs_cases v with ⟨he, _⟩ | ⟨he, _⟩ <;> rw [he] <;> omega

/-- Claim C10 witness: the sample value 150 is inside the non-wrapping
range and is counted as non-silent via the equivalence. -/
theorem claim_C10_witness :
    (-32768 < (150 : Int)) ∧ ((150 : Int) < 32768) ∧
    (isSilentSample 150 = true ↔ |(150 : Int)| < 100) :=
  ⟨by decide, by decide, claim_C10.2 150 (by decide) (by decide)⟩
